import Mathlib

/-!
Shallow embedding of the connection registry / notification dispatcher
(`packages/services/src/notificationService.ts` of the fastify-prisma
monorepo) together with proofs about its operations.

Modelling conventions:
* The JS `Map` keyed by `userId` becomes an insertion-ordered association
  list (`State`); `mapGet`, `mapSet`, `mapDelete` follow `Map.get`,
  `Map.set` (replace in place, keeping the position) and `Map.delete`.
* A WebSocket handle is a `Socket`: `sid` models reference identity (`===`),
  `readyState` the numeric readiness enum (`1` = OPEN), `sendFails` whether
  a `send` call on it throws, `closeFails` whether a `close` call throws.
* `JSON.stringify` applied to a `NotificationPayload` can throw (the `data`
  field has type `any`: a cyclic value or a `BigInt` inside it makes it
  raise `TypeError`); the flag `serializable` on `Payload` records whether
  serialization of the payload succeeds.
* Operations return a `StepResult`: `result = none` models an exception
  escaping to the caller; `state` holds the registry contents at that point
  and `events` the channel interactions (send / close calls) that occurred,
  in order.
* The `Map.forEach` bodies in `broadcast` and `cleanupInactiveConnections`
  only ever delete the entry currently being visited, so the live iteration
  coincides with iteration over a snapshot of the entries taken at the
  start; the loops below iterate over such a snapshot.
* The `socket.on` close / error subscriptions installed by `addClient` fire
  asynchronously; their handler is exactly `removeClient userId socket`,
  which is modelled (and verified) as the `removeClient` operation itself.
-/

namespace Notif

/-- A WebSocket connection handle (`WebSocketConnection` in
`packages/services/src/interfaces/INotificationService.ts`): `sid` is the
object identity used by the `===` comparison in `removeClient`,
`readyState` the readiness enum (0 CONNECTING, 1 OPEN, 2 CLOSING,
3 CLOSED), `sendFails` / `closeFails` say whether `send` / `close` throw
when invoked on this handle. -/
structure Socket where
  sid : Nat
  readyState : Nat
  sendFails : Bool
  closeFails : Bool
deriving DecidableEq

/-- The `ConnectedClient` record stored as the value of the `clients` map. -/
structure ConnectedClient where
  userId : String
  socket : Socket
deriving DecidableEq

/-- A `NotificationPayload` (`packages/types/src/index.ts`): `ptype` is the
`type` discriminator (`NEW_POST` / `USER_UPDATE` / `SYSTEM`), `message` the
human-readable text, `userId` the optional subject, and `serializable`
whether `JSON.stringify` succeeds on the payload (its `data : any` field can
hold values that make `JSON.stringify` throw). -/
structure Payload where
  ptype : String
  message : String
  userId : Option String
  serializable : Bool
deriving DecidableEq

/-- The wire message handed to `socket.send`: the serialized payload fields
plus the server-assigned delivery timestamp added by `sendToUser`. -/
structure Message where
  payload : Payload
  timestamp : String
deriving DecidableEq

/-- An observable interaction with a channel: a `close()` call on the socket
with identity `sid`, or a `send` of `msg` made while delivering to `uid` on
the socket with identity `sid`. -/
inductive Event where
  | closeCalled : Nat → Event
  | sendCalled : String → Nat → Message → Event
deriving DecidableEq

/-- The `clients : Map<string, ConnectedClient>` field of the service, as an
insertion-ordered association list. -/
abbrev State := List ConnectedClient

/-- Result of running one service method: `result = none` means an exception
propagated to the caller; `state` is the registry at that point, `events`
the channel interactions that occurred. -/
structure StepResult (α : Type) where
  result : Option α
  state : State
  events : List Event
deriving DecidableEq

/-- `Map.get`: the entry currently stored for `userId`, if any. -/
def mapGet : State → String → Option ConnectedClient
  | [], _ => none
  | c :: rest, userId =>
    if c.userId = userId then some c else mapGet rest userId

/-- `Map.set`: replace the entry holding the same key in place (keeping its
position), or append a fresh entry at the end. -/
def mapSet : State → ConnectedClient → State
  | [], client => [client]
  | c :: rest, client =>
    if c.userId = client.userId then client :: rest else c :: mapSet rest client

/-- `Map.delete`: drop the entry stored for `userId`. -/
def mapDelete : State → String → State
  | [], _ => []
  | c :: rest, userId =>
    if c.userId = userId then mapDelete rest userId else c :: mapDelete rest userId

/-- `removeClient(userId, socket)`: delete the entry only when one is present
and its stored socket is (reference-)identical to the argument
(notificationService.ts lines 43-48). -/
def removeClient (s : State) (userId : String) (socket : Socket) : State :=
  match mapGet s userId with
  | some client => if client.socket = socket then mapDelete s userId else s
  | none => s

/-- `sendToUser(userId, payload)` (notificationService.ts lines 50-74): look
the client up (absent: `false`); serialize the payload with a timestamp
(`JSON.stringify` sits before the readiness check and outside the
`try`/`catch`, so a serialization failure propagates); if the socket is OPEN
try to send (a throwing `send` is caught: the entry is removed and `false`
returned); a non-OPEN socket has its entry removed and `false` returned. -/
def sendToUser (s : State) (userId : String) (payload : Payload) (now : String) :
    StepResult Bool :=
  match mapGet s userId with
  | none => StepResult.mk (some false) s []
  | some client =>
    if payload.serializable then
      if client.socket.readyState = 1 then
        if client.socket.sendFails then
          StepResult.mk (some false) (removeClient s userId client.socket)
            [Event.sendCalled userId client.socket.sid (Message.mk payload now)]
        else
          StepResult.mk (some true) s
            [Event.sendCalled userId client.socket.sid (Message.mk payload now)]
      else
        StepResult.mk (some false) (removeClient s userId client.socket) []
    else
      StepResult.mk none s []

/-- The welcome payload sent right after registration
(notificationService.ts lines 37-40); a plain object literal, so its
serialization always succeeds. -/
def welcomePayload : Payload :=
  Payload.mk "SYSTEM" "Connected to notification service" none true

/-- Tail of `addClient` after the existing-client check: store the new
entry, install the close / error subscriptions, and send the welcome message
through `sendToUser` (notificationService.ts lines 21-40). `evts` carries
the close call already made on a replaced socket. -/
def addClientInsert (s : State) (userId : String) (socket : Socket) (now : String)
    (evts : List Event) : StepResult Unit :=
  let s1 := mapSet s (ConnectedClient.mk userId socket)
  let r := sendToUser s1 userId welcomePayload now
  StepResult.mk (r.result.map (fun _ => Unit.unit)) r.state (evts ++ r.events)

/-- `addClient(userId, socket)` (notificationService.ts lines 15-41): when
an entry already exists its socket gets a `close()` call — this call is not
wrapped in `try`/`catch`, so a throwing `close` propagates and the method
aborts before inserting the new entry; otherwise the new entry is stored and
the welcome message sent. -/
def addClient (s : State) (userId : String) (socket : Socket) (now : String) :
    StepResult Unit :=
  match mapGet s userId with
  | some existingClient =>
    if existingClient.socket.closeFails then
      StepResult.mk none s [Event.closeCalled existingClient.socket.sid]
    else
      addClientInsert s userId socket now [Event.closeCalled existingClient.socket.sid]
  | none => addClientInsert s userId socket now []

/-- The guard `excludeUserId && userId === excludeUserId` of `broadcast`:
`undefined` and the empty string are falsy, so an absent or empty
`excludeUserId` excludes nobody. -/
def skipExcluded (excludeUserId : Option String) (userId : String) : Bool :=
  match excludeUserId with
  | none => false
  | some e => if e = "" then false else decide (userId = e)

/-- The `forEach` loop of `broadcast` over a snapshot of the keys, threading
the registry state (each `sendToUser` may delete the entry being visited). -/
def broadcastLoop (payload : Payload) (excludeUserId : Option String) (now : String) :
    List String → State → StepResult Nat
  | [], s => StepResult.mk (some 0) s []
  | u :: rest, s =>
    if skipExcluded excludeUserId u then
      broadcastLoop payload excludeUserId now rest s
    else
      let r := sendToUser s u payload now
      match r.result with
      | none => StepResult.mk none r.state r.events
      | some b =>
        let r2 := broadcastLoop payload excludeUserId now rest r.state
        StepResult.mk (r2.result.map (fun n => (if b then 1 else 0) + n)) r2.state
          (r.events ++ r2.events)

/-- `broadcast(payload, excludeUserId?)` (notificationService.ts lines
76-90): iterate over all registered identities, skip the (truthy) excluded
one, call `sendToUser` for each and count the successful deliveries. -/
def broadcast (s : State) (payload : Payload) (excludeUserId : Option String)
    (now : String) : StepResult Nat :=
  broadcastLoop payload excludeUserId now (s.map (fun c => c.userId)) s

/-- `getConnectedUsers()`: the current keys, in insertion order. -/
def getConnectedUsers (s : State) : List String :=
  s.map (fun c => c.userId)

/-- `getConnectionCount()`: the size of the map. -/
def getConnectionCount (s : State) : Nat :=
  s.length

/-- `isUserConnected(userId)`: membership test on the map. -/
def isUserConnected (s : State) (userId : String) : Bool :=
  (mapGet s userId).isSome

/-- The `forEach` loop of `cleanupInactiveConnections` over a snapshot of
the entries: every entry whose socket is not OPEN gets a best-effort
`close()` (the empty `catch` swallows a throwing close, so `closeFails` is
irrelevant) and is deleted. -/
def cleanupLoop : List ConnectedClient → State → State × List Event
  | [], s => (s, [])
  | client :: rest, s =>
    if client.socket.readyState = 1 then
      cleanupLoop rest s
    else
      let r := cleanupLoop rest (mapDelete s client.userId)
      (r.1, Event.closeCalled client.socket.sid :: r.2)

/-- `cleanupInactiveConnections()` (notificationService.ts lines 104-113). -/
def cleanupInactiveConnections (s : State) : State × List Event :=
  cleanupLoop s s

/-- Well-formedness of a registry state: keys are unique. Every state the
service can actually reach satisfies this, because the underlying JS `Map`
cannot hold duplicate keys. -/
def Wf (s : State) : Prop :=
  (s.map (fun c => c.userId)).Nodup

instance (s : State) : Decidable (Wf s) := by
  unfold Wf
  infer_instance

/-! Concrete sockets, payloads and states used by the closed witness and
counterexample theorems below. -/

/-- An OPEN socket whose send and close both succeed. -/
def sockA : Socket := Socket.mk 0 1 false false

/-- A second OPEN, well-behaved socket, distinct from `sockA`. -/
def sockB : Socket := Socket.mk 1 1 false false

/-- A socket reporting the CLOSED readiness state. -/
def sockDead : Socket := Socket.mk 2 3 false false

/-- An OPEN socket whose `close()` call throws. -/
def sockStuck : Socket := Socket.mk 3 1 false true

/-- An OPEN socket whose `send()` call throws. -/
def sockFlaky : Socket := Socket.mk 4 1 true false

/-- A payload whose serialization succeeds. -/
def payloadOk : Payload := Payload.mk "SYSTEM" "hi" none true

/-- A payload whose `data` field makes `JSON.stringify` throw (for example a
cyclic object or a `BigInt`). -/
def payloadCyclic : Payload := Payload.mk "SYSTEM" "hi" none false

/-- A registry holding a single healthy connection for alice. -/
def demoState : State := [ConnectedClient.mk "alice" sockA]

/-! Basic lemmas about the map operations. -/

theorem mapGet_mapDelete_self (s : State) (w : String) :
    mapGet (mapDelete s w) w = none := by
  induction s with
  | nil => rfl
  | cons c rest ih =>
    by_cases h : c.userId = w
    · simp [mapDelete, h, ih]
    · simp [mapDelete, mapGet, h, ih]

theorem mapGet_mapDelete_ne (s : State) (w v : String) (h : v ≠ w) :
    mapGet (mapDelete s w) v = mapGet s v := by
  induction s with
  | nil => rfl
  | cons c rest ih =>
    by_cases hc : c.userId = w
    · have hcv : ¬ c.userId = v := fun hv => h (hv.symm.trans hc)
      simp only [mapDelete, if_pos hc]
      rw [ih]
      simp only [mapGet, if_neg hcv]
    · simp only [mapDelete, if_neg hc, mapGet]
      by_cases hcv : c.userId = v
      · rw [if_pos hcv, if_pos hcv]
      · rw [if_neg hcv, if_neg hcv, ih]

theorem mapGet_mapSet_self (s : State) (c : ConnectedClient) :
    mapGet (mapSet s c) c.userId = some c := by
  induction s with
  | nil => simp [mapSet, mapGet]
  | cons d rest ih =>
    by_cases h : d.userId = c.userId
    · simp [mapSet, mapGet, h]
    · simp [mapSet, mapGet, h, ih]

theorem mapSet_length_le (s : State) (c : ConnectedClient) :
    (mapSet s c).length ≤ s.length + 1 := by
  induction s with
  | nil => simp [mapSet]
  | cons d rest ih =>
    by_cases h : d.userId = c.userId
    · simp [mapSet, h]
    · simpa [mapSet, h] using ih

theorem mapSet_length_of_found (s : State) (c d : ConnectedClient)
    (h : mapGet s c.userId = some d) : (mapSet s c).length = s.length := by
  induction s with
  | nil => simp [mapGet] at h
  | cons e rest ih =>
    by_cases he : e.userId = c.userId
    · simp [mapSet, he]
    · rw [mapGet, if_neg he] at h
      simp [mapSet, he, ih h]

theorem mapGet_eq_some_mem (s : State) (u : String) (c : ConnectedClient)
    (h : mapGet s u = some c) : c ∈ s ∧ c.userId = u := by
  induction s with
  | nil => simp [mapGet] at h
  | cons d rest ih =>
    by_cases hd : d.userId = u
    · rw [mapGet, if_pos hd] at h
      cases h
      exact ⟨List.mem_cons_self _ _, hd⟩
    · rw [mapGet, if_neg hd] at h
      exact ⟨List.mem_cons_of_mem _ (ih h).1, (ih h).2⟩

theorem mem_keys_of_mapGet (s : State) (u : String) (c : ConnectedClient)
    (h : mapGet s u = some c) : u ∈ s.map (fun x => x.userId) := by
  rcases mapGet_eq_some_mem s u c h with ⟨hmem, huid⟩
  exact huid ▸ List.mem_map_of_mem _ hmem

theorem isUserConnected_iff (s : State) (u : String) :
    isUserConnected s u = true ↔ ∃ c, mapGet s u = some c := by
  unfold isUserConnected
  cases h : mapGet s u <;> simp [h]

theorem mapGet_eq_none_of_all_ne (t : State) (w : String)
    (h : ∀ d ∈ t, d.userId ≠ w) : mapGet t w = none := by
  induction t with
  | nil => rfl
  | cons d rest ih =>
    rw [mapGet, if_neg (h d (List.mem_cons_self _ _))]
    exact ih (fun e he => h e (List.mem_cons_of_mem _ he))

theorem mapDelete_of_not_mem (s : State) (w : String)
    (h : ∀ d ∈ s, d.userId ≠ w) : mapDelete s w = s := by
  induction s with
  | nil => rfl
  | cons d rest ih =>
    rw [mapDelete, if_neg (h d (List.mem_cons_self _ _))]
    rw [ih (fun e he => h e (List.mem_cons_of_mem _ he))]

/-! Case lemmas for `removeClient`. -/

theorem removeClient_absent (s : State) (u : String) (k : Socket)
    (h : mapGet s u = none) : removeClient s u k = s := by
  unfold removeClient
  rw [h]

theorem removeClient_mismatch (s : State) (u : String) (k : Socket)
    (c : ConnectedClient) (h : mapGet s u = some c) (hne : c.socket ≠ k) :
    removeClient s u k = s := by
  unfold removeClient
  rw [h]
  simp [hne]

theorem removeClient_match (s : State) (u : String) (k : Socket)
    (c : ConnectedClient) (h : mapGet s u = some c) (he : c.socket = k) :
    removeClient s u k = mapDelete s u := by
  unfold removeClient
  rw [h]
  simp [he]

/-! Case lemmas for `sendToUser`. -/

theorem sendToUser_absent (s : State) (u : String) (p : Payload) (now : String)
    (h : mapGet s u = none) :
    sendToUser s u p now = StepResult.mk (some false) s [] := by
  unfold sendToUser
  rw [h]

theorem sendToUser_not_serializable (s : State) (u : String) (p : Payload)
    (now : String) (c : ConnectedClient) (hget : mapGet s u = some c)
    (hser : p.serializable = false) :
    sendToUser s u p now = StepResult.mk none s [] := by
  unfold sendToUser
  rw [hget]
  simp [hser]

theorem sendToUser_found_notReady (s : State) (u : String) (p : Payload)
    (now : String) (c : ConnectedClient) (hget : mapGet s u = some c)
    (hser : p.serializable = true) (h1 : c.socket.readyState ≠ 1) :
    sendToUser s u p now = StepResult.mk (some false) (mapDelete s u) [] := by
  unfold sendToUser
  rw [hget]
  simp [hser, h1, removeClient_match s u c.socket c hget rfl]

theorem sendToUser_found_sendFails (s : State) (u : String) (p : Payload)
    (now : String) (c : ConnectedClient) (hget : mapGet s u = some c)
    (hser : p.serializable = true) (h1 : c.socket.readyState = 1)
    (h2 : c.socket.sendFails = true) :
    sendToUser s u p now = StepResult.mk (some false) (mapDelete s u)
      [Event.sendCalled u c.socket.sid (Message.mk p now)] := by
  unfold sendToUser
  rw [hget]
  simp [hser, h1, h2, removeClient_match s u c.socket c hget rfl]

theorem sendToUser_found_ok (s : State) (u : String) (p : Payload)
    (now : String) (c : ConnectedClient) (hget : mapGet s u = some c)
    (hser : p.serializable = true) (h1 : c.socket.readyState = 1)
    (h2 : c.socket.sendFails = false) :
    sendToUser s u p now = StepResult.mk (some true) s
      [Event.sendCalled u c.socket.sid (Message.mk p now)] := by
  unfold sendToUser
  rw [hget]
  simp [hser, h1, h2]

theorem sendToUser_result_isSome (s : State) (u : String) (p : Payload)
    (now : String) (hser : p.serializable = true) :
    (sendToUser s u p now).result.isSome = true := by
  cases hget : mapGet s u with
  | none => rw [sendToUser_absent s u p now hget]; rfl
  | some c =>
    by_cases h1 : c.socket.readyState = 1
    · cases h2 : c.socket.sendFails
      · rw [sendToUser_found_ok s u p now c hget hser h1 h2]; rfl
      · rw [sendToUser_found_sendFails s u p now c hget hser h1 h2]; rfl
    · rw [sendToUser_found_notReady s u p now c hget hser h1]; rfl

theorem sendToUser_state_cases (s : State) (u : String) (p : Payload)
    (now : String) :
    (sendToUser s u p now).state = s ∨ (sendToUser s u p now).state = mapDelete s u := by
  cases hget : mapGet s u with
  | none => rw [sendToUser_absent s u p now hget]; exact Or.inl rfl
  | some c =>
    cases hser : p.serializable
    · rw [sendToUser_not_serializable s u p now c hget hser]; exact Or.inl rfl
    · by_cases h1 : c.socket.readyState = 1
      · cases h2 : c.socket.sendFails
        · rw [sendToUser_found_ok s u p now c hget hser h1 h2]; exact Or.inl rfl
        · rw [sendToUser_found_sendFails s u p now c hget hser h1 h2]; exact Or.inr rfl
      · rw [sendToUser_found_notReady s u p now c hget hser h1]; exact Or.inr rfl

theorem sendToUser_mapGet_ne (s : State) (u : String) (p : Payload)
    (now : String) (v : String) (hv : v ≠ u) :
    mapGet (sendToUser s u p now).state v = mapGet s v := by
  rcases sendToUser_state_cases s u p now with h | h
  · rw [h]
  · rw [h]
    exact mapGet_mapDelete_ne s u v hv

theorem sendToUser_events_shape (s : State) (u : String) (p : Payload)
    (now : String) :
    ∀ ev ∈ (sendToUser s u p now).events, ∃ k m, ev = Event.sendCalled u k m := by
  intro ev hev
  cases hget : mapGet s u with
  | none =>
    rw [sendToUser_absent s u p now hget] at hev
    simp at hev
  | some c =>
    cases hser : p.serializable
    · rw [sendToUser_not_serializable s u p now c hget hser] at hev
      simp at hev
    · by_cases h1 : c.socket.readyState = 1
      · cases h2 : c.socket.sendFails
        · rw [sendToUser_found_ok s u p now c hget hser h1 h2] at hev
          simp at hev
          exact ⟨c.socket.sid, Message.mk p now, hev⟩
        · rw [sendToUser_found_sendFails s u p now c hget hser h1 h2] at hev
          simp at hev
          exact ⟨c.socket.sid, Message.mk p now, hev⟩
      · rw [sendToUser_found_notReady s u p now c hget hser h1] at hev
        simp at hev

theorem sendToUser_events_uid (s : State) (w : String) (p : Payload)
    (now : String) (u : String) (k : Nat) (m : Message) (hne : u ≠ w) :
    Event.sendCalled u k m ∉ (sendToUser s w p now).events := by
  intro hmem
  rcases sendToUser_events_shape s w p now _ hmem with ⟨k2, m2, hev⟩
  injection hev with h1 h2 h3
  exact hne h1

/-- C4: `removeClient(identity, channel)` deletes the entry for `identity`
exactly when the stored channel is identical to the given one; when the
identity is absent or the stored channel differs it is a no-op that leaves
the registry and `isUserConnected` unchanged; and a second call with the
same arguments after a removal is a no-op. -/
theorem removeClient_delete_iff_identical (s : State) (u : String) (k : Socket) :
    (∀ c, mapGet s u = some c → c.socket = k →
      removeClient s u k = mapDelete s u
      ∧ isUserConnected (removeClient s u k) u = false)
    ∧ (mapGet s u = none → removeClient s u k = s)
    ∧ (∀ c, mapGet s u = some c → c.socket ≠ k →
      removeClient s u k = s
      ∧ isUserConnected (removeClient s u k) u = isUserConnected s u)
    ∧ removeClient (removeClient s u k) u k = removeClient s u k := by
  refine ⟨?_, ?_, ?_, ?_⟩
  · intro c hget he
    have hrm := removeClient_match s u k c hget he
    refine ⟨hrm, ?_⟩
    rw [hrm]
    simp [isUserConnected, mapGet_mapDelete_self]
  · exact removeClient_absent s u k
  · intro c hget hne
    have hrm := removeClient_mismatch s u k c hget hne
    exact ⟨hrm, by rw [hrm]⟩
  · cases hget : mapGet s u with
    | none => rw [removeClient_absent s u k hget, removeClient_absent s u k hget]
    | some c =>
      by_cases he : c.socket = k
      · have hrm := removeClient_match s u k c hget he
        rw [hrm]
        exact removeClient_absent (mapDelete s u) u k (mapGet_mapDelete_self s u)
      · have hrm := removeClient_mismatch s u k c hget he
        rw [hrm, hrm]

/-- Witness for C4 at a concrete registry: removing the stored socket for alice
deletes her entry. -/
theorem removeClient_delete_iff_identical_witness :
    removeClient demoState "alice" sockA = mapDelete demoState "alice" :=
  ((removeClient_delete_iff_identical demoState "alice" sockA).1
    (ConnectedClient.mk "alice" sockA) (by decide) rfl).1

/-- C6: `sendToUser` for an unregistered identity returns `false`, performs
no channel interaction, and leaves the registry — hence the connection
count — unchanged. -/
theorem sendToUser_unregistered_noop (s : State) (u : String) (p : Payload)
    (now : String) (h : mapGet s u = none) :
    sendToUser s u p now = StepResult.mk (some false) s []
    ∧ getConnectionCount (sendToUser s u p now).state = getConnectionCount s := by
  have hx := sendToUser_absent s u p now h
  exact ⟨hx, by rw [hx]⟩

/-- Witness for C6: sending to the never-registered carol. -/
theorem sendToUser_unregistered_noop_witness :
    sendToUser demoState "carol" payloadOk "t0" = StepResult.mk (some false) demoState [] :=
  (sendToUser_unregistered_noop demoState "carol" payloadOk "t0" (by decide)).1

/-- Counterexample to C5 as stated: alice is registered with a CLOSED
channel, yet `sendToUser` with a payload whose serialization fails raises
(`result = none`) rather than returning `false`, and her entry survives,
because `JSON.stringify` runs before the readiness check. -/
theorem sendToUser_notReady_cex :
    (sendToUser [ConnectedClient.mk "alice" sockDead] "alice" payloadCyclic "t0").result = none
    ∧ isUserConnected
        (sendToUser [ConnectedClient.mk "alice" sockDead] "alice" payloadCyclic "t0").state
        "alice" = true := by
  decide

/-- C5 (amended): for payloads whose serialization succeeds, `sendToUser` on
a registered identity whose channel is not OPEN returns `false` and removes
the entry, so `isUserConnected` is `false` afterwards. -/
theorem sendToUser_notReady_removes (s : State) (u : String) (p : Payload)
    (now : String) (c : ConnectedClient) (hser : p.serializable = true)
    (hget : mapGet s u = some c) (h1 : c.socket.readyState ≠ 1) :
    (sendToUser s u p now).result = some false
    ∧ isUserConnected (sendToUser s u p now).state u = false := by
  rw [sendToUser_found_notReady s u p now c hget hser h1]
  exact ⟨rfl, by simp [isUserConnected, mapGet_mapDelete_self]⟩

/-- Witness for C5 (amended): alice on a CLOSED channel, ordinary payload. -/
theorem sendToUser_notReady_removes_witness :
    (sendToUser [ConnectedClient.mk "alice" sockDead] "alice" payloadOk "t0").result = some false :=
  (sendToUser_notReady_removes [ConnectedClient.mk "alice" sockDead] "alice" payloadOk "t0"
    (ConnectedClient.mk "alice" sockDead) rfl (by decide) (by decide)).1

/-- Counterexample to C1 as stated: with alice registered on a healthy OPEN
channel, `sendToUser` with a payload whose serialization fails raises to the
caller (`result = none` models the uncaught `TypeError` from
`JSON.stringify`, which sits outside the `try`/`catch`) instead of removing
the entry and returning `false`; the registry is left unchanged. -/
theorem sendToUser_raises_cex :
    (sendToUser demoState "alice" payloadCyclic "t0").result = none
    ∧ (sendToUser demoState "alice" payloadCyclic "t0").state = demoState := by
  decide

/-- C1 (amended): serialization runs before the readiness check and outside
the `try`, so only for payloads whose serialization succeeds does
`sendToUser` never raise; it then behaves as specified: absent entry gives
`false`; a non-OPEN channel has its entry removed and gives `false`; a
throwing `send` is absorbed, the entry removed and `false` returned; a
successful `send` returns `true` and leaves the registry unchanged. -/
theorem sendToUser_total_on_serializable (s : State) (u : String) (p : Payload)
    (now : String) (hser : p.serializable = true) :
    (sendToUser s u p now).result.isSome = true
    ∧ (mapGet s u = none → sendToUser s u p now = StepResult.mk (some false) s [])
    ∧ (∀ c, mapGet s u = some c → c.socket.readyState ≠ 1 →
        sendToUser s u p now = StepResult.mk (some false) (mapDelete s u) [])
    ∧ (∀ c, mapGet s u = some c → c.socket.readyState = 1 → c.socket.sendFails = true →
        sendToUser s u p now = StepResult.mk (some false) (mapDelete s u)
          [Event.sendCalled u c.socket.sid (Message.mk p now)])
    ∧ (∀ c, mapGet s u = some c → c.socket.readyState = 1 → c.socket.sendFails = false →
        sendToUser s u p now = StepResult.mk (some true) s
          [Event.sendCalled u c.socket.sid (Message.mk p now)]) := by
  refine ⟨sendToUser_result_isSome s u p now hser, ?_, ?_, ?_, ?_⟩
  · exact sendToUser_absent s u p now
  · exact fun c hget h1 => sendToUser_found_notReady s u p now c hget hser h1
  · exact fun c hget h1 h2 => sendToUser_found_sendFails s u p now c hget hser h1 h2
  · exact fun c hget h1 h2 => sendToUser_found_ok s u p now c hget hser h1 h2

/-- Witness for C1 (amended): a serializable payload never raises. -/
theorem sendToUser_total_on_serializable_witness :
    (sendToUser demoState "alice" payloadOk "t0").result.isSome = true :=
  (sendToUser_total_on_serializable demoState "alice" payloadOk "t0" rfl).1

/-! Lemmas about `addClient`. -/

theorem addClientInsert_eq (s : State) (u : String) (k : Socket) (now : String)
    (evts : List Event) :
    addClientInsert s u k now evts =
      StepResult.mk
        ((sendToUser (mapSet s (ConnectedClient.mk u k)) u welcomePayload now).result.map
          (fun _ => Unit.unit))
        (sendToUser (mapSet s (ConnectedClient.mk u k)) u welcomePayload now).state
        (evts ++ (sendToUser (mapSet s (ConnectedClient.mk u k)) u welcomePayload now).events) :=
  rfl

theorem addClientInsert_result (s : State) (u : String) (k : Socket) (now : String)
    (evts : List Event) :
    (addClientInsert s u k now evts).result = some Unit.unit := by
  rw [addClientInsert_eq]
  have h := sendToUser_result_isSome (mapSet s (ConnectedClient.mk u k)) u welcomePayload now rfl
  rcases Option.isSome_iff_exists.mp h with ⟨b, hb⟩
  simp [hb]

theorem addClientInsert_ok (s : State) (u : String) (k : Socket) (now : String)
    (evts : List Event) (h1 : k.readyState = 1) (h2 : k.sendFails = false) :
    addClientInsert s u k now evts =
      StepResult.mk (some Unit.unit) (mapSet s (ConnectedClient.mk u k))
        (evts ++ [Event.sendCalled u k.sid (Message.mk welcomePayload now)]) := by
  rw [addClientInsert_eq,
    sendToUser_found_ok (mapSet s (ConnectedClient.mk u k)) u welcomePayload now
      (ConnectedClient.mk u k) (mapGet_mapSet_self s (ConnectedClient.mk u k)) rfl h1 h2]
  rfl

theorem addClientInsert_notReady (s : State) (u : String) (k : Socket) (now : String)
    (evts : List Event) (h1 : k.readyState ≠ 1) :
    addClientInsert s u k now evts =
      StepResult.mk (some Unit.unit) (mapDelete (mapSet s (ConnectedClient.mk u k)) u)
        evts := by
  rw [addClientInsert_eq,
    sendToUser_found_notReady (mapSet s (ConnectedClient.mk u k)) u welcomePayload now
      (ConnectedClient.mk u k) (mapGet_mapSet_self s (ConnectedClient.mk u k)) rfl h1]
  simp

theorem addClient_absent_eq (s : State) (u : String) (k : Socket) (now : String)
    (h : mapGet s u = none) :
    addClient s u k now = addClientInsert s u k now [] := by
  unfold addClient
  rw [h]

theorem addClient_replace_eq (s : State) (u : String) (k : Socket) (now : String)
    (c : ConnectedClient) (h : mapGet s u = some c) (hcf : c.socket.closeFails = false) :
    addClient s u k now = addClientInsert s u k now [Event.closeCalled c.socket.sid] := by
  unfold addClient
  rw [h]
  simp [hcf]

/-- Counterexample to C2 as stated: the existing socket stored for alice throws on
`close()`; `addClient` for a replacement raises (the close call is not
wrapped in `try`/`catch`, unlike in `cleanupInactiveConnections`) and the
new entry is never inserted. -/
theorem addClient_close_raises_cex :
    (addClient [ConnectedClient.mk "alice" sockStuck] "alice" sockB "t0").result = none
    ∧ (addClient [ConnectedClient.mk "alice" sockStuck] "alice" sockB "t0").state
        = [ConnectedClient.mk "alice" sockStuck] := by
  decide

/-- C2 (amended): `addClient` completes — and stores the new entry — provided
the `close()` of any replaced channel does not throw; a throwing close propagates
to the caller and aborts the replacement. On completion, if the new channel
is OPEN with a working `send` the entry for the identity is the new channel;
if the new channel is not OPEN the welcome send immediately deletes the
fresh entry again. -/
theorem addClient_completes_when_close_ok (s : State) (u : String) (k : Socket)
    (now : String)
    (hclose : ∀ c, mapGet s u = some c → c.socket.closeFails = false) :
    (addClient s u k now).result = some Unit.unit
    ∧ (k.readyState = 1 → k.sendFails = false →
        mapGet (addClient s u k now).state u = some (ConnectedClient.mk u k))
    ∧ (k.readyState ≠ 1 → isUserConnected (addClient s u k now).state u = false) := by
  have hins : ∃ evts, addClient s u k now = addClientInsert s u k now evts := by
    cases hget : mapGet s u with
    | none => exact ⟨[], addClient_absent_eq s u k now hget⟩
    | some c => exact ⟨_, addClient_replace_eq s u k now c hget (hclose c hget)⟩
  rcases hins with ⟨evts, he⟩
  rw [he]
  refine ⟨addClientInsert_result s u k now evts, ?_, ?_⟩
  · intro h1 h2
    rw [addClientInsert_ok s u k now evts h1 h2]
    exact mapGet_mapSet_self s (ConnectedClient.mk u k)
  · intro h1
    rw [addClientInsert_notReady s u k now evts h1]
    simp [isUserConnected, mapGet_mapDelete_self]

/-- Witness for C2 (amended): replacing the well-behaved socket of alice
completes. -/
theorem addClient_completes_when_close_ok_witness :
    (addClient demoState "alice" sockB "t0").result = some Unit.unit :=
  (addClient_completes_when_close_ok demoState "alice" sockB "t0"
    (fun c h => by
      have h2 : some (ConnectedClient.mk "alice" sockA) = some c := h
      cases h2
      rfl)).1

/-- Counterexample to C3 as stated: registering alice with a channel that
reports CLOSED ends with `isUserConnected` false, because the welcome send
issued at the end of `addClient` finds the channel non-OPEN and removes the
just-inserted entry. -/
theorem addClient_dead_socket_cex :
    isUserConnected (addClient [] "alice" sockDead "t0").state "alice" = false := by
  decide

/-- C3 (amended): provided the `close()` of any replaced channel does not throw
and the new channel is OPEN with a working `send`, after
`addClient(u, c)` the identity is connected, its stored entry is exactly the
new channel, the connection count grows by at most one (and is unchanged
when the identity was already registered), and a replaced channel received a
`close()` call. -/
theorem addClient_registers (s : State) (u : String) (k : Socket) (now : String)
    (hclose : ∀ c, mapGet s u = some c → c.socket.closeFails = false)
    (h1 : k.readyState = 1) (h2 : k.sendFails = false) :
    isUserConnected (addClient s u k now).state u = true
    ∧ mapGet (addClient s u k now).state u = some (ConnectedClient.mk u k)
    ∧ getConnectionCount (addClient s u k now).state ≤ getConnectionCount s + 1
    ∧ (isUserConnected s u = true →
        getConnectionCount (addClient s u k now).state = getConnectionCount s)
    ∧ (∀ c, mapGet s u = some c →
        Event.closeCalled c.socket.sid ∈ (addClient s u k now).events) := by
  have hstate : (addClient s u k now).state = mapSet s (ConnectedClient.mk u k) := by
    cases hget : mapGet s u with
    | none => rw [addClient_absent_eq s u k now hget, addClientInsert_ok s u k now [] h1 h2]
    | some c =>
      rw [addClient_replace_eq s u k now c hget (hclose c hget),
        addClientInsert_ok s u k now _ h1 h2]
  have hg : mapGet (mapSet s (ConnectedClient.mk u k)) u = some (ConnectedClient.mk u k) :=
    mapGet_mapSet_self s (ConnectedClient.mk u k)
  refine ⟨?_, ?_, ?_, ?_, ?_⟩
  · unfold isUserConnected
    rw [hstate, hg]
    rfl
  · rw [hstate]
    exact hg
  · rw [getConnectionCount, getConnectionCount, hstate]
    exact mapSet_length_le s (ConnectedClient.mk u k)
  · intro hconn
    rcases (isUserConnected_iff s u).mp hconn with ⟨c, hget⟩
    rw [getConnectionCount, getConnectionCount, hstate]
    exact mapSet_length_of_found s (ConnectedClient.mk u k) c hget
  · intro c hget
    rw [addClient_replace_eq s u k now c hget (hclose c hget),
      addClientInsert_ok s u k now _ h1 h2]
    exact List.mem_append_left _ (List.mem_singleton_self _)

/-- Witness for C3 (amended): replacing the healthy socket of alice with a second
healthy socket keeps her connected. -/
theorem addClient_registers_witness :
    isUserConnected (addClient demoState "alice" sockB "t0").state "alice" = true :=
  (addClient_registers demoState "alice" sockB "t0"
    (fun c h => by
      have h2 : some (ConnectedClient.mk "alice" sockA) = some c := h
      cases h2
      rfl) rfl rfl).1

/-! Lemmas about the exclusion guard and the broadcast loop. -/

theorem skipExcluded_none (u : String) : skipExcluded none u = false := rfl

theorem skipExcluded_empty (u : String) : skipExcluded (some "") u = false := by
  simp [skipExcluded]

theorem skipExcluded_self (u : String) (hne : u ≠ "") :
    skipExcluded (some u) u = true := by
  simp [skipExcluded, hne]

theorem skipExcluded_other (u v : String) (hne : v ≠ u) :
    skipExcluded (some u) v = false := by
  by_cases he : u = ""
  · simp [skipExcluded, he]
  · simp [skipExcluded, he, hne]

theorem broadcastLoop_nil (p : Payload) (e : Option String) (now : String) (s : State) :
    broadcastLoop p e now [] s = StepResult.mk (some 0) s [] := rfl

theorem broadcastLoop_cons_skip (p : Payload) (e : Option String) (now u : String)
    (rest : List String) (s : State) (hu : skipExcluded e u = true) :
    broadcastLoop p e now (u :: rest) s = broadcastLoop p e now rest s := by
  simp [broadcastLoop, hu]

theorem broadcastLoop_cons_raise (p : Payload) (e : Option String) (now u : String)
    (rest : List String) (s : State) (hu : skipExcluded e u = false)
    (hb : (sendToUser s u p now).result = none) :
    broadcastLoop p e now (u :: rest) s =
      StepResult.mk none (sendToUser s u p now).state (sendToUser s u p now).events := by
  simp [broadcastLoop, hu, hb]

theorem broadcastLoop_cons_go (p : Payload) (e : Option String) (now u : String)
    (rest : List String) (s : State) (b : Bool) (hu : skipExcluded e u = false)
    (hb : (sendToUser s u p now).result = some b) :
    broadcastLoop p e now (u :: rest) s =
      StepResult.mk
        ((broadcastLoop p e now rest (sendToUser s u p now).state).result.map
          (fun n => (if b then 1 else 0) + n))
        (broadcastLoop p e now rest (sendToUser s u p now).state).state
        ((sendToUser s u p now).events
          ++ (broadcastLoop p e now rest (sendToUser s u p now).state).events) := by
  simp [broadcastLoop, hu, hb]

theorem broadcastLoop_count_le (p : Payload) (e : Option String) (now : String)
    (hser : p.serializable = true) :
    ∀ keys : List String, ∀ s : State,
      ∃ n, (broadcastLoop p e now keys s).result = some n
        ∧ n ≤ (keys.filter (fun x => !skipExcluded e x)).length := by
  intro keys
  induction keys with
  | nil => exact fun s => ⟨0, rfl, Nat.le_refl 0⟩
  | cons u rest ih =>
    intro s
    by_cases hu : skipExcluded e u = true
    · rcases ih s with ⟨n, hn, hle⟩
      refine ⟨n, ?_, ?_⟩
      · rw [broadcastLoop_cons_skip p e now u rest s hu]
        exact hn
      · rw [List.filter_cons]
        simp only [hu, Bool.not_true, if_false]
        exact hle
    · rw [Bool.not_eq_true] at hu
      rcases Option.isSome_iff_exists.mp (sendToUser_result_isSome s u p now hser) with ⟨b, hb⟩
      rcases ih (sendToUser s u p now).state with ⟨n, hn, hle⟩
      refine ⟨(if b then 1 else 0) + n, ?_, ?_⟩
      · rw [broadcastLoop_cons_go p e now u rest s b hu hb]
        simp [hn]
      · have hb1 : (if b then 1 else 0) ≤ 1 := by cases b <;> simp
        calc (if b then 1 else 0) + n ≤ 1 + n := Nat.add_le_add_right hb1 n
        _ ≤ 1 + (rest.filter (fun x => !skipExcluded e x)).length := Nat.add_le_add_left hle 1
        _ = ((u :: rest).filter (fun x => !skipExcluded e x)).length := by
              rw [List.filter_cons]
              simp [hu, Nat.add_comm]

theorem broadcastLoop_skipped_no_events (p : Payload) (e : Option String)
    (now u : String) (hu : skipExcluded e u = true) :
    ∀ keys : List String, ∀ s : State, ∀ k m,
      Event.sendCalled u k m ∉ (broadcastLoop p e now keys s).events := by
  intro keys
  induction keys with
  | nil =>
    intro s k m h
    simp [broadcastLoop_nil] at h
  | cons w rest ih =>
    intro s k m
    by_cases hw : skipExcluded e w = true
    · rw [broadcastLoop_cons_skip p e now w rest s hw]
      exact ih s k m
    · rw [Bool.not_eq_true] at hw
      have hne : u ≠ w := by
        intro h
        rw [← h] at hw
        rw [hu] at hw
        exact Bool.noConfusion hw
      cases hb : (sendToUser s w p now).result with
      | none =>
        rw [broadcastLoop_cons_raise p e now w rest s hw hb]
        exact sendToUser_events_uid s w p now u k m hne
      | some b =>
        rw [broadcastLoop_cons_go p e now w rest s b hw hb]
        intro hmem
        rcases List.mem_append.mp hmem with h | h
        · exact sendToUser_events_uid s w p now u k m hne h
        · exact ih (sendToUser s w p now).state k m h

theorem broadcastLoop_delivers (p : Payload) (e : Option String) (now v : String)
    (c : ConnectedClient) (hser : p.serializable = true)
    (hsv : skipExcluded e v = false) (h1 : c.socket.readyState = 1)
    (h2 : c.socket.sendFails = false) :
    ∀ keys : List String, ∀ s : State, v ∈ keys → mapGet s v = some c →
      Event.sendCalled v c.socket.sid (Message.mk p now)
        ∈ (broadcastLoop p e now keys s).events := by
  intro keys
  induction keys with
  | nil =>
    intro s hv
    exact absurd hv (List.not_mem_nil v)
  | cons w rest ih =>
    intro s hv hget
    by_cases hw : skipExcluded e w = true
    · have hne : v ≠ w := by
        intro h
        rw [← h] at hw
        rw [hsv] at hw
        exact Bool.noConfusion hw
      have hv2 : v ∈ rest := by
        rcases List.mem_cons.mp hv with h | h
        · exact absurd h hne
        · exact h
      rw [broadcastLoop_cons_skip p e now w rest s hw]
      exact ih s hv2 hget
    · rw [Bool.not_eq_true] at hw
      by_cases hvw : v = w
      · subst hvw
        have hst := sendToUser_found_ok s v p now c hget hser h1 h2
        have hb : (sendToUser s v p now).result = some true := by rw [hst]
        rw [broadcastLoop_cons_go p e now v rest s true hw hb]
        apply List.mem_append_left
        rw [hst]
        exact List.mem_singleton_self _
      · rcases Option.isSome_iff_exists.mp (sendToUser_result_isSome s w p now hser) with ⟨b, hb⟩
        have hv2 : v ∈ rest := by
          rcases List.mem_cons.mp hv with h | h
          · exact absurd h hvw
          · exact h
        have hget2 : mapGet (sendToUser s w p now).state v = some c := by
          rw [sendToUser_mapGet_ne s w p now v hvw]
          exact hget
        rw [broadcastLoop_cons_go p e now w rest s b hw hb]
        apply List.mem_append_right
        exact ih (sendToUser s w p now).state hv2 hget2

theorem broadcastLoop_count_pos (p : Payload) (e : Option String) (now v : String)
    (c : ConnectedClient) (hser : p.serializable = true)
    (hsv : skipExcluded e v = false) (h1 : c.socket.readyState = 1)
    (h2 : c.socket.sendFails = false) :
    ∀ keys : List String, ∀ s : State, v ∈ keys → mapGet s v = some c →
      ∃ n, (broadcastLoop p e now keys s).result = some n ∧ 1 ≤ n := by
  intro keys
  induction keys with
  | nil =>
    intro s hv
    exact absurd hv (List.not_mem_nil v)
  | cons w rest ih =>
    intro s hv hget
    by_cases hw : skipExcluded e w = true
    · have hne : v ≠ w := by
        intro h
        rw [← h] at hw
        rw [hsv] at hw
        exact Bool.noConfusion hw
      have hv2 : v ∈ rest := by
        rcases List.mem_cons.mp hv with h | h
        · exact absurd h hne
        · exact h
      rw [broadcastLoop_cons_skip p e now w rest s hw]
      exact ih s hv2 hget
    · rw [Bool.not_eq_true] at hw
      by_cases hvw : v = w
      · subst hvw
        have hst := sendToUser_found_ok s v p now c hget hser h1 h2
        have hb : (sendToUser s v p now).result = some true := by rw [hst]
        rcases broadcastLoop_count_le p e now hser rest (sendToUser s v p now).state
          with ⟨n, hn, hle⟩
        refine ⟨1 + n, ?_, Nat.le_add_right 1 n⟩
        rw [broadcastLoop_cons_go p e now v rest s true hw hb]
        simp [hn]
      · rcases Option.isSome_iff_exists.mp (sendToUser_result_isSome s w p now hser) with ⟨b, hb⟩
        have hv2 : v ∈ rest := by
          rcases List.mem_cons.mp hv with h | h
          · exact absurd h hvw
          · exact h
        have hget2 : mapGet (sendToUser s w p now).state v = some c := by
          rw [sendToUser_mapGet_ne s w p now v hvw]
          exact hget
        rcases ih (sendToUser s w p now).state hv2 hget2 with ⟨n, hn, hge⟩
        refine ⟨(if b then 1 else 0) + n, ?_, Nat.le_trans hge (Nat.le_add_left n _)⟩
        rw [broadcastLoop_cons_go p e now w rest s b hw hb]
        simp [hn]

theorem filter_length_succ_le (l : List String) (q : String → Bool) (a : String)
    (ha : a ∈ l) (hqa : q a = false) : (l.filter q).length + 1 ≤ l.length := by
  induction l with
  | nil => exact absurd ha (List.not_mem_nil a)
  | cons b tl ih =>
    rcases List.mem_cons.mp ha with h | h
    · subst h
      rw [List.filter_cons]
      simp only [hqa, if_false, List.length_cons]
      exact Nat.add_le_add_right (List.length_filter_le q tl) 1
    · rw [List.filter_cons, List.length_cons]
      by_cases hqb : q b = true
      · rw [if_pos hqb, List.length_cons]
        exact Nat.add_le_add_right (ih h) 1
      · rw [if_neg hqb]
        exact Nat.le_trans (ih h) (Nat.le_succ _)

theorem broadcastLoop_no_close (p : Payload) (e : Option String) (now : String) :
    ∀ keys : List String, ∀ s : State, ∀ k : Nat,
      Event.closeCalled k ∉ (broadcastLoop p e now keys s).events := by
  intro keys
  induction keys with
  | nil =>
    intro s k h
    simp [broadcastLoop_nil] at h
  | cons w rest ih =>
    intro s k
    by_cases hw : skipExcluded e w = true
    · rw [broadcastLoop_cons_skip p e now w rest s hw]
      exact ih s k
    · rw [Bool.not_eq_true] at hw
      have hsend : Event.closeCalled k ∉ (sendToUser s w p now).events := by
        intro hmem
        rcases sendToUser_events_shape s w p now _ hmem with ⟨k2, m2, hev⟩
        exact Event.noConfusion hev
      cases hb : (sendToUser s w p now).result with
      | none =>
        rw [broadcastLoop_cons_raise p e now w rest s hw hb]
        exact hsend
      | some b =>
        rw [broadcastLoop_cons_go p e now w rest s b hw hb]
        intro hmem
        rcases List.mem_append.mp hmem with h | h
        · exact hsend h
        · exact ih (sendToUser s w p now).state k h

theorem broadcastLoop_exclude_congr (p : Payload) (now : String)
    (e1 e2 : Option String) (h : ∀ x, skipExcluded e1 x = skipExcluded e2 x) :
    ∀ keys : List String, ∀ s : State,
      broadcastLoop p e1 now keys s = broadcastLoop p e2 now keys s := by
  intro keys
  induction keys with
  | nil => exact fun s => rfl
  | cons w rest ih =>
    intro s
    by_cases hw : skipExcluded e1 w = true
    · rw [broadcastLoop_cons_skip p e1 now w rest s hw,
        broadcastLoop_cons_skip p e2 now w rest s (by rw [← h w]; exact hw), ih]
    · rw [Bool.not_eq_true] at hw
      have hw2 : skipExcluded e2 w = false := by
        rw [← h w]
        exact hw
      cases hb : (sendToUser s w p now).result with
      | none =>
        rw [broadcastLoop_cons_raise p e1 now w rest s hw hb,
          broadcastLoop_cons_raise p e2 now w rest s hw2 hb]
      | some b =>
        rw [broadcastLoop_cons_go p e1 now w rest s b hw hb,
          broadcastLoop_cons_go p e2 now w rest s b hw2 hb, ih]

/-- A two-user registry with healthy OPEN channels, used by witnesses. -/
def demoState2 : State :=
  [ConnectedClient.mk "alice" sockA, ConnectedClient.mk "bob" sockB]

/-- Counterexample to C7 as stated. First conjunct: the registry holds the
single identity `""` (so N = 1 and u = `""` is one of the N identities), yet
`broadcast` excluding `""` returns count 1, not ≤ N − 1 = 0, and the channel
of `""` does receive the send — the falsy-string guard ignores an
empty-string exclusion. Second conjunct: with a payload whose serialization
fails, `broadcast` raises (`result = none`) instead of returning any count,
so the delivery failure does abort the whole broadcast. -/
theorem broadcast_exclude_cex :
    ((broadcast [ConnectedClient.mk "" sockA] payloadOk (some "") "t0").result = some 1
      ∧ Event.sendCalled "" 0 (Message.mk payloadOk "t0")
          ∈ (broadcast [ConnectedClient.mk "" sockA] payloadOk (some "") "t0").events)
    ∧ (broadcast demoState2 payloadCyclic (some "alice") "t0").result = none := by
  decide

/-- C7 (amended): for a non-empty excluded identity u registered among the N
entries and a payload whose serialization succeeds, `broadcast` returns a
count ≤ N − 1, the channel of u receives no send call, and every other registered
identity whose channel is OPEN with a working `send` still receives the
message — failed deliveries to other recipients cannot prevent it, since
each recipient is handled independently. (An empty-string exclusion is
treated as no exclusion, and an unserializable payload raises, aborting the
broadcast.) -/
theorem broadcast_exclude_spec (s : State) (p : Payload) (u : String) (now : String)
    (hne : u ≠ "") (hser : p.serializable = true) (hu : isUserConnected s u = true) :
    (∃ n, (broadcast s p (some u) now).result = some n ∧ n + 1 ≤ getConnectionCount s)
    ∧ (∀ k m, Event.sendCalled u k m ∉ (broadcast s p (some u) now).events)
    ∧ (∀ v c, v ≠ u → mapGet s v = some c → c.socket.readyState = 1 →
        c.socket.sendFails = false →
        Event.sendCalled v c.socket.sid (Message.mk p now)
          ∈ (broadcast s p (some u) now).events) := by
  rcases (isUserConnected_iff s u).mp hu with ⟨cu, hcu⟩
  have hukeys : u ∈ s.map (fun x => x.userId) := mem_keys_of_mapGet s u cu hcu
  have hskipu : skipExcluded (some u) u = true := skipExcluded_self u hne
  refine ⟨?_, ?_, ?_⟩
  · rcases broadcastLoop_count_le p (some u) now hser (s.map (fun x => x.userId)) s
      with ⟨n, hn, hle⟩
    refine ⟨n, hn, ?_⟩
    have hq : (!skipExcluded (some u) u) = false := by
      rw [hskipu]
      rfl
    have hlen := filter_length_succ_le (s.map (fun x => x.userId))
      (fun x => !skipExcluded (some u) x) u hukeys hq
    calc n + 1
        ≤ ((s.map (fun x => x.userId)).filter (fun x => !skipExcluded (some u) x)).length + 1 :=
          Nat.add_le_add_right hle 1
      _ ≤ (s.map (fun x => x.userId)).length := hlen
      _ = getConnectionCount s := List.length_map s (fun x => x.userId)
  · intro k m
    exact broadcastLoop_skipped_no_events p (some u) now u hskipu _ s k m
  · intro v c hvu hget h1 h2
    exact broadcastLoop_delivers p (some u) now v c hser (skipExcluded_other u v hvu) h1 h2
      _ s (mem_keys_of_mapGet s v c hget) hget

/-- Witness for C7 (amended): broadcasting over a two-user registry while
excluding alice sends nothing to the channel of alice. -/
theorem broadcast_exclude_spec_witness :
    Event.sendCalled "alice" 0 (Message.mk payloadOk "t0")
      ∉ (broadcast demoState2 payloadOk (some "alice") "t0").events :=
  (broadcast_exclude_spec demoState2 payloadOk "alice" "t0" (by decide) rfl
    (by decide)).2.1 0 (Message.mk payloadOk "t0")

/-- C9: an empty-string `excludeUserId` is falsy, so `broadcast` with
`excludeUserId = ""` equals `broadcast` with no exclusion at all; in
particular a registered empty-string identity with a healthy OPEN channel is
still sent the message and counted. -/
theorem broadcast_empty_exclude_not_excluding (s : State) (p : Payload)
    (now : String) (c : ConnectedClient) (hser : p.serializable = true)
    (hget : mapGet s "" = some c) (h1 : c.socket.readyState = 1)
    (h2 : c.socket.sendFails = false) :
    broadcast s p (some "") now = broadcast s p none now
    ∧ Event.sendCalled "" c.socket.sid (Message.mk p now)
        ∈ (broadcast s p (some "") now).events
    ∧ (∃ n, (broadcast s p (some "") now).result = some n ∧ 1 ≤ n) := by
  have hcongr : ∀ x, skipExcluded (some "") x = skipExcluded none x := by
    intro x
    rw [skipExcluded_empty, skipExcluded_none]
  refine ⟨?_, ?_, ?_⟩
  · unfold broadcast
    exact broadcastLoop_exclude_congr p now (some "") none hcongr _ s
  · exact broadcastLoop_delivers p (some "") now "" c hser (skipExcluded_empty "")
      h1 h2 _ s (mem_keys_of_mapGet s "" c hget) hget
  · exact broadcastLoop_count_pos p (some "") now "" c hser (skipExcluded_empty "")
      h1 h2 _ s (mem_keys_of_mapGet s "" c hget) hget

/-- Witness for C9 at a registry holding the empty-string identity. -/
theorem broadcast_empty_exclude_not_excluding_witness :
    broadcast [ConnectedClient.mk "" sockA] payloadOk (some "") "t0"
      = broadcast [ConnectedClient.mk "" sockA] payloadOk none "t0" :=
  (broadcast_empty_exclude_not_excluding [ConnectedClient.mk "" sockA] payloadOk "t0"
    (ConnectedClient.mk "" sockA) rfl (by decide) rfl rfl).1

/-- C10: the send path never closes a channel. `sendToUser` emits no close
call and its only state change is deleting the entry it looked up;
`broadcast`, which delegates to `sendToUser`, emits no close call either.
`removeClient` by construction performs no channel interaction at all (its
result type is just the updated registry), so among the registry operations
only `addClient` (on the replaced channel) and `cleanupInactiveConnections`
ever issue close calls. -/
theorem sendPath_never_closes (s : State) (u : String) (p : Payload)
    (ex : Option String) (now : String) :
    (∀ k, Event.closeCalled k ∉ (sendToUser s u p now).events)
    ∧ ((sendToUser s u p now).state = s ∨ (sendToUser s u p now).state = mapDelete s u)
    ∧ (∀ k, Event.closeCalled k ∉ (broadcast s p ex now).events) := by
  refine ⟨?_, sendToUser_state_cases s u p now, ?_⟩
  · intro k hmem
    rcases sendToUser_events_shape s u p now _ hmem with ⟨k2, m2, hev⟩
    exact Event.noConfusion hev
  · intro k
    exact broadcastLoop_no_close p ex now _ s k

/-- Witness for C10: a concrete send to alice issues no close call. -/
theorem sendPath_never_closes_witness :
    Event.closeCalled 0 ∉ (sendToUser demoState "alice" payloadOk "t0").events :=
  (sendPath_never_closes demoState "alice" payloadOk none "t0").1 0

/-! Lemmas about well-formed states and the reaping loop. -/

theorem Wf_cons (c : ConnectedClient) (tl : State) (h : Wf (c :: tl)) :
    (∀ d ∈ tl, d.userId ≠ c.userId) ∧ Wf tl := by
  unfold Wf at h ⊢
  rw [List.map_cons, List.nodup_cons] at h
  refine ⟨?_, h.2⟩
  intro d hd he
  exact h.1 (he ▸ List.mem_map_of_mem _ hd)

theorem Wf_mapGet_of_mem : ∀ s : State, Wf s → ∀ c ∈ s, mapGet s c.userId = some c := by
  intro s
  induction s with
  | nil =>
    intro _ c hc
    exact absurd hc (List.not_mem_nil c)
  | cons a tl ih =>
    intro hwf c hc
    rcases Wf_cons a tl hwf with ⟨hne, hwtl⟩
    rcases List.mem_cons.mp hc with h | h
    · rw [h]
      simp [mapGet]
    · have hda : ¬ a.userId = c.userId := fun hh => hne c h hh.symm
      rw [mapGet, if_neg hda]
      exact ih hwtl c h

theorem Wf_unique (s : State) (hwf : Wf s) (c d : ConnectedClient) (hc : c ∈ s)
    (hd : d ∈ s) (he : d.userId = c.userId) : d = c := by
  have h1 := Wf_mapGet_of_mem s hwf c hc
  have h2 := Wf_mapGet_of_mem s hwf d hd
  rw [he, h1] at h2
  exact (Option.some.inj h2).symm

theorem Wf_filter (s : State) (hwf : Wf s) (q : ConnectedClient → Bool) :
    Wf (s.filter q) := by
  unfold Wf at hwf ⊢
  exact List.Nodup.sublist (List.Sublist.map _ (List.filter_sublist s)) hwf

theorem cleanupLoop_cons_state (a : ConnectedClient) :
    ∀ L : List ConnectedClient, ∀ s : State, (∀ d ∈ L, d.userId ≠ a.userId) →
      cleanupLoop L (a :: s) = (a :: (cleanupLoop L s).1, (cleanupLoop L s).2) := by
  intro L
  induction L with
  | nil =>
    intro s h
    rfl
  | cons d rest ih =>
    intro s h
    have hd : d.userId ≠ a.userId := h d (List.mem_cons_self _ _)
    have hrest : ∀ x ∈ rest, x.userId ≠ a.userId :=
      fun x hx => h x (List.mem_cons_of_mem _ hx)
    by_cases hrs : d.socket.readyState = 1
    · simp only [cleanupLoop, if_pos hrs]
      exact ih s hrest
    · have had : ¬ a.userId = d.userId := fun hh => hd hh.symm
      simp only [cleanupLoop, if_neg hrs, mapDelete, if_neg had]
      rw [ih (mapDelete s d.userId) hrest]

theorem cleanupLoop_self_spec : ∀ s : State, Wf s →
    cleanupLoop s s =
      (s.filter (fun c => c.socket.readyState = 1),
       (s.filter (fun c => c.socket.readyState ≠ 1)).map
         (fun c => Event.closeCalled c.socket.sid)) := by
  intro s
  induction s with
  | nil =>
    intro h
    rfl
  | cons a tl ih =>
    intro hwf
    rcases Wf_cons a tl hwf with ⟨hne, hwtl⟩
    by_cases hrs : a.socket.readyState = 1
    · have hstep : cleanupLoop (a :: tl) (a :: tl) = cleanupLoop tl (a :: tl) := by
        simp only [cleanupLoop, if_pos hrs]
      rw [hstep, cleanupLoop_cons_state a tl tl hne, ih hwtl]
      simp [List.filter_cons, hrs]
    · have hdel : mapDelete (a :: tl) a.userId = tl := by
        have hx : mapDelete (a :: tl) a.userId = mapDelete tl a.userId := by
          simp [mapDelete]
        rw [hx]
        exact mapDelete_of_not_mem tl a.userId hne
      have hstep : cleanupLoop (a :: tl) (a :: tl) =
          ((cleanupLoop tl tl).1, Event.closeCalled a.socket.sid :: (cleanupLoop tl tl).2) := by
        simp only [cleanupLoop, if_neg hrs, hdel]
      rw [hstep, ih hwtl]
      simp [List.filter_cons, hrs]

/-- C8: on a well-formed registry, `cleanupInactiveConnections` keeps
exactly the entries whose channel is OPEN, issues a best-effort `close()`
(whose errors the empty `catch` swallows) on every non-OPEN channel in
order, removes those entries — so each affected identity is no longer
connected afterwards — and leaves every OPEN entry stored unchanged. -/
theorem cleanup_removes_nonOpen (s : State) (hwf : Wf s) :
    (cleanupInactiveConnections s).1 = s.filter (fun c => c.socket.readyState = 1)
    ∧ (cleanupInactiveConnections s).2 =
        (s.filter (fun c => c.socket.readyState ≠ 1)).map
          (fun c => Event.closeCalled c.socket.sid)
    ∧ (∀ c ∈ s, c.socket.readyState ≠ 1 →
        isUserConnected (cleanupInactiveConnections s).1 c.userId = false
        ∧ Event.closeCalled c.socket.sid ∈ (cleanupInactiveConnections s).2)
    ∧ (∀ c ∈ s, c.socket.readyState = 1 →
        mapGet (cleanupInactiveConnections s).1 c.userId = some c) := by
  have hspec := cleanupLoop_self_spec s hwf
  have h1 : (cleanupInactiveConnections s).1
      = s.filter (fun c => c.socket.readyState = 1) := by
    unfold cleanupInactiveConnections
    rw [hspec]
  have h2 : (cleanupInactiveConnections s).2
      = (s.filter (fun c => c.socket.readyState ≠ 1)).map
          (fun c => Event.closeCalled c.socket.sid) := by
    unfold cleanupInactiveConnections
    rw [hspec]
  refine ⟨h1, h2, ?_, ?_⟩
  · intro c hc hrs
    constructor
    · rw [h1]
      unfold isUserConnected
      rw [mapGet_eq_none_of_all_ne]
      · rfl
      · intro d hd he
        have hdmem := List.mem_filter.mp hd
        have hdc : d = c := Wf_unique s hwf c d hc hdmem.1 he
        rw [hdc] at hdmem
        exact hrs (of_decide_eq_true hdmem.2)
    · rw [h2]
      apply List.mem_map_of_mem
      exact List.mem_filter.mpr ⟨hc, by simp [hrs]⟩
  · intro c hc hrs
    rw [h1]
    have hcf : c ∈ s.filter (fun x => x.socket.readyState = 1) :=
      List.mem_filter.mpr ⟨hc, by simp [hrs]⟩
    exact Wf_mapGet_of_mem _ (Wf_filter s hwf _) c hcf

/-- Witness for C8: after reaping a registry where the channel of alice
reports CLOSED and that of bob is OPEN, alice is no longer connected. -/
theorem cleanup_removes_nonOpen_witness :
    isUserConnected
      (cleanupInactiveConnections
        [ConnectedClient.mk "alice" sockDead, ConnectedClient.mk "bob" sockB]).1
      "alice" = false :=
  ((cleanup_removes_nonOpen
      [ConnectedClient.mk "alice" sockDead, ConnectedClient.mk "bob" sockB]
      (by decide)).2.2.1 (ConnectedClient.mk "alice" sockDead)
      (by decide) (by decide)).1

end Notif
